import Mathlib

/-!
Shallow embedding of the Code Intelligence & Process Orchestration core of
the Artfical Code Editor repository (files `Artfical_Code_Editor.py`,
`artficalv2.5.py`, `Artficalv2.py`).

The Python `ast` module is external to the repository; we model the result
of `ast.parse` + `ast.walk` abstractly as `Option (List PyNode)`:
`none` models a parse failure (`ast.parse` raising), `some nodes` models
the walk order of the syntax-tree nodes relevant to the repository's code
(`ast.Import`, `ast.ImportFrom`, `ast.FunctionDef`, `ast.ClassDef`,
`ast.Call` with an `ast.Name` callee).  Every function of the repository
that consumes a parse is translated from the source.
-/

/-- Model of one syntax-tree node as observed by `ast.walk` in the sources.
`imp names lineno` is an `ast.Import` with its alias names;
`impFrom module lineno` is an `ast.ImportFrom` (`module = none` models
`node.module is None`, i.e. a purely relative `from . import x`);
`callName funcId srcSeg lineno` is an `ast.Call` whose `func` is an
`ast.Name` (with `srcSeg` the result of `ast.get_source_segment`);
`other` is any other node kind, which the sources ignore. -/
inductive PyNode where
  | imp (names : List String) (lineno : Nat)
  | impFrom (module : Option String) (lineno : Nat)
  | funcDef (name : String) (lineno : Nat)
  | classDef (name : String) (lineno : Nat)
  | callName (funcId : String) (srcSeg : Option String) (lineno : Nat)
  | other
deriving DecidableEq

/-- Characters of a string up to (excluding) the first dot. -/
def takeUntilDot : List Char → List Char
  | [] => []
  | c :: cs => if c = '.' then [] else c :: takeUntilDot cs

/-- Model of Python `s.split('.')[0]`: the top-level segment of a dotted
module path. -/
def topSegment (s : String) : String := ⟨takeUntilDot s.data⟩

/-- Model of Python `set.add`: the result list is kept duplicate-free, so
membership coincides with membership in the Python set. -/
def addPkg (pkgs : List String) (x : String) : List String :=
  if x ∈ pkgs then pkgs else pkgs ++ [x]

/-- One step of the `ast.walk` loop of `scan_imports_ast`: an `ast.Import`
adds `n.name.split('.')[0]` for each alias, an `ast.ImportFrom` with a
non-`None` module adds `node.module.split('.')[0]`, everything else is
skipped. -/
def scanNode (pkgs : List String) (node : PyNode) : List String :=
  match node with
  | .imp names _ => names.foldl (fun acc n => addPkg acc (topSegment n)) pkgs
  | .impFrom (some m) _ => addPkg pkgs (topSegment m)
  | _ => pkgs

/-- Translation of `scan_imports_ast` (identical in all three editions):
on a parse failure the empty set is returned; otherwise the walk
accumulates top-level module names into a set. -/
def scan_imports_ast : Option (List PyNode) → List String
  | none => []
  | some nodes => nodes.foldl scanNode []

/-- The top-level module names a single node contributes to
`scan_imports_ast` (specification helper used to state the claims). -/
def nodeModules (node : PyNode) : List String :=
  match node with
  | .imp names _ => names.map topSegment
  | .impFrom (some m) _ => [topSegment m]
  | _ => []

/-- Outline produced by `outline_from_python`: the four sequences of the
`out` dict, each entry a display string with its source line number. -/
structure Outline where
  imports : List (String × Nat)
  prints : List (String × Nat)
  defs : List (String × Nat)
  classes : List (String × Nat)
deriving DecidableEq

/-- The empty outline, `{"imports": [], "prints": [], "defs": [], "classes": []}`. -/
def emptyOutline : Outline := ⟨[], [], [], []⟩

/-- One step of the `ast.walk` loop of `outline_from_python`. -/
def outlineNode (o : Outline) (node : PyNode) : Outline :=
  match node with
  | .imp names ln => { o with imports := o.imports ++ names.map (fun n => (n, ln)) }
  | .impFrom m ln => { o with imports := o.imports ++ [("from " ++ m.getD "" ++ " import ...", ln)] }
  | .funcDef n ln => { o with defs := o.defs ++ [(n, ln)] }
  | .classDef n ln => { o with classes := o.classes ++ [(n, ln)] }
  | .callName f seg ln =>
      if f = "print" then { o with prints := o.prints ++ [(seg.getD "print(...)", ln)] } else o
  | .other => o

/-- Comparison used by `out[k].sort(key=lambda x: x[1])`. -/
def lineLe (a b : String × Nat) : Prop := a.2 ≤ b.2

instance : DecidableRel lineLe := fun a b => Nat.decLe a.2 b.2

instance : IsTotal (String × Nat) lineLe := ⟨fun a b => Nat.le_total a.2 b.2⟩

instance : IsTrans (String × Nat) lineLe := ⟨fun _ _ _ hab hbc => Nat.le_trans hab hbc⟩

/-- Model of `out[k].sort(key=lambda x: x[1])` (a stable sort by line
number). -/
def sortByLine (l : List (String × Nat)) : List (String × Nat) :=
  List.insertionSort lineLe l

/-- Translation of `outline_from_python`: on a parse failure the empty
outline is returned; otherwise the walk collects entries and each of the
four sequences is sorted by line number. -/
def outline_from_python : Option (List PyNode) → Outline
  | none => emptyOutline
  | some nodes =>
      let o := nodes.foldl outlineNode emptyOutline
      ⟨sortByLine o.imports, sortByLine o.prints, sortByLine o.defs, sortByLine o.classes⟩

/-- Result of `importlib.util.find_spec(pkg)` as seen by
`is_package_installed`: a spec was found, `None` was returned, or the call
raised. -/
inductive FindSpecResult where
  | found
  | notFound
  | raises
deriving DecidableEq

/-- Translation of `is_package_installed`: `find_spec(pkg) is not None`,
with any exception caught and turned into `False`. -/
def is_package_installed (env : String → FindSpecResult) (pkg : String) : Bool :=
  match env pkg with
  | .found => true
  | .notFound => false
  | .raises => false

/-- Lexicographic comparison of character lists by code point, the order
Python uses to compare strings. -/
def charListLe : List Char → List Char → Bool
  | [], _ => true
  | _ :: _, [] => false
  | a :: as, b :: bs =>
      if a.toNat < b.toNat then true
      else if b.toNat < a.toNat then false
      else charListLe as bs

/-- The string order used by Python `sorted`: lexicographic by code
point. -/
def pyLe (a b : String) : Prop := charListLe a.data b.data = true

instance : DecidableRel pyLe := fun a b =>
  inferInstanceAs (Decidable (charListLe a.data b.data = true))

/-- The code-point order is total. -/
theorem charListLe_total : ∀ as bs : List Char, charListLe as bs = true ∨ charListLe bs as = true
  | [], _ => Or.inl rfl
  | _ :: _, [] => Or.inr rfl
  | a :: as, b :: bs => by
      rcases Nat.lt_trichotomy a.toNat b.toNat with h | h | h
      · exact Or.inl (by simp [charListLe, h])
      · rcases charListLe_total as bs with ih | ih
        · exact Or.inl (by simp [charListLe, h, ih, Nat.lt_irrefl])
        · exact Or.inr (by simp [charListLe, h, ih, Nat.lt_irrefl])
      · exact Or.inr (by simp [charListLe, h])

/-- The code-point order is transitive. -/
theorem charListLe_trans : ∀ as bs cs : List Char,
    charListLe as bs = true → charListLe bs cs = true → charListLe as cs = true
  | [], _, _ => fun _ _ => rfl
  | _ :: _, [], _ => fun h1 _ => by simp [charListLe] at h1
  | _ :: _, _ :: _, [] => fun _ h2 => by simp [charListLe] at h2
  | a :: as, b :: bs, c :: cs => fun h1 h2 => by
      simp only [charListLe] at h1 h2 ⊢
      rcases Nat.lt_trichotomy a.toNat b.toNat with hab | hab | hab
      · rcases Nat.lt_trichotomy b.toNat c.toNat with hbc | hbc | hbc
        · have hac : a.toNat < c.toNat := Nat.lt_trans hab hbc
          simp [hac]
        · have hac : a.toNat < c.toNat := hbc ▸ hab
          simp [hac]
        · rw [if_neg (by omega), if_pos hbc] at h2
          exact absurd h2 Bool.false_ne_true
      · rw [if_neg (by omega), if_neg (by omega)] at h1
        rcases Nat.lt_trichotomy b.toNat c.toNat with hbc | hbc | hbc
        · have hac : a.toNat < c.toNat := by omega
          simp [hac]
        · rw [if_neg (by omega), if_neg (by omega)] at h2
          rw [if_neg (by omega), if_neg (by omega)]
          exact charListLe_trans as bs cs h1 h2
        · rw [if_neg (by omega), if_pos hbc] at h2
          exact absurd h2 Bool.false_ne_true
      · rw [if_neg (by omega), if_pos hab] at h1
        exact absurd h1 Bool.false_ne_true

instance : IsTotal String pyLe := ⟨fun a b => charListLe_total a.data b.data⟩

instance : IsTrans String pyLe := ⟨fun a b c => charListLe_trans a.data b.data c.data⟩

/-- Model of Python `sorted` on a list of strings (lexicographic by code
point). -/
def pySorted (l : List String) : List String :=
  List.insertionSort pyLe l

/-- Translation of `missing = [p for p in sorted(scan_imports_ast(code)) if
not is_package_installed(p)]`, shared by `install_missing_current`,
`_auto_installer_tick` and `install_imports`, starting from the scanned
module names. -/
def missingOf (env : String → FindSpecResult) (pkgs : List String) : List String :=
  (pySorted pkgs).filter (fun p => !is_package_installed env p)

/-- The missing-package list computed from a source buffer's parse. -/
def missingPackages (env : String → FindSpecResult) (parse : Option (List PyNode)) : List String :=
  missingOf env (scan_imports_ast parse)

/-!
Installer Task (`InstallerThread.run`).  `subprocess.run([python, "-m",
"pip", "install", pkg], capture_output=True)` is external; we model its
outcome for each package name by an oracle `exec : String → InstallResult`
(deterministic during one task run, matching one installation attempt per
package).  Log emission via `self.log.emit` is modelled by the returned
list of log lines, and `self.finished.emit(succeeded, failed)` by the
returned pair.
-/

/-- Outcome of one attempted `pip install` child process: either it ran to
completion with a return code and captured output streams, or spawning it
raised (e.g. a missing installer binary), with the exception detail. -/
inductive InstallResult where
  | exited (returncode : Int) (stdout : String) (stderr : String)
  | launchFailure (detail : String)
deriving DecidableEq

/-- Whitespace as stripped by Python `str.strip()`. -/
def isPySpace (c : Char) : Bool :=
  c = ' ' || c = '\t' || c = '\n' || c = '\r' || c = '\x0b' || c = '\x0c'

/-- Drop leading whitespace characters. -/
def dropSpace : List Char → List Char
  | [] => []
  | c :: cs => if isPySpace c then dropSpace cs else c :: cs

/-- Model of Python `str.strip()`: whitespace removed from both ends. -/
def pyStrip (s : String) : String :=
  ⟨(dropSpace (dropSpace s.data).reverse).reverse⟩

/-- The log line `f"\n--- Installing {pkg} ---"` emitted before each
install attempt. -/
def startLine (pkg : String) : String := "\n--- Installing " ++ pkg ++ " ---"

/-- Whether the loop body classifies `pkg` as succeeded: the child process
ran and `proc.returncode == 0`; a launch failure is classified failed. -/
def installSucceeds (exec : String → InstallResult) (pkg : String) : Bool :=
  match exec pkg with
  | .exited rc _ _ => rc == 0
  | .launchFailure _ => false

/-- Log lines one iteration of the `InstallerThread.run` loop emits for
`pkg`: the starting line, then the stripped stdout if non-empty, then on a
non-zero exit the stripped stderr if non-empty; on a launch failure the
caught-exception line (`f"Exception while installing {pkg}: {e}..."`). -/
def moduleLogs (exec : String → InstallResult) (pkg : String) : List String :=
  startLine pkg ::
    match exec pkg with
    | .exited rc out err =>
        (if pyStrip out ≠ "" then [pyStrip out] else []) ++
          (if rc ≠ 0 ∧ pyStrip err ≠ "" then [pyStrip err] else [])
    | .launchFailure d => ["Exception while installing " ++ pkg ++ ": " ++ d]

/-- Translation of `InstallerThread.run`: the loop over `self.packages`,
in order, emitting each iteration's log lines and appending the package to
`succeeded` or `failed` by the branch taken.  The result is
`(log lines, succeeded, failed)`, the terminal `finished` pair being the
last two components, emitted exactly once when the loop ends. -/
def installerRun (exec : String → InstallResult) :
    List String → List String × List String × List String
  | [] => ([], [], [])
  | pkg :: rest =>
      let r := installerRun exec rest
      (moduleLogs exec pkg ++ r.1,
       (if installSucceeds exec pkg then [pkg] else []) ++ r.2.1,
       (if installSucceeds exec pkg then [] else [pkg]) ++ r.2.2)

/-!
Autosave Scheduler (`CodeEditor.autosave` / `EditorTab.autosave`).  The
document state is the editor's buffer (`toPlainText()`), the backing path
(`file_path`, `None` for an unsaved tab) and the last-persisted snapshot
(`_saved_text`).  The filesystem write is modelled by an oracle
`fsWrite : path → content → WriteOutcome`.
-/

/-- Outcome of `open(path, "w").write(text)`: success, or a raised
exception with its detail. -/
inductive WriteOutcome where
  | ok
  | failure (detail : String)
deriving DecidableEq

/-- Document state relevant to autosave. -/
structure Document where
  file_path : Option String
  buffer : String
  saved_text : String
deriving DecidableEq

/-- Translation of `is_modified`: buffer differs from the snapshot. -/
def is_modified (d : Document) : Bool := d.buffer != d.saved_text

/-- Result of one autosave tick: the document afterwards, the successful
write (path, content) if any, and the log lines (`print("Autosave
failed:", e)` on a caught write failure). -/
structure TickResult where
  doc : Document
  written : Option (String × String)
  logs : List String
deriving DecidableEq

/-- Translation of `autosave` (identical in all editions): do nothing
without a backing path or when unmodified; otherwise write the buffer and
update the snapshot, catching and logging a write failure (in which case
the snapshot assignment is not reached). -/
def autosave (fsWrite : String → String → WriteOutcome) (d : Document) : TickResult :=
  match d.file_path with
  | none => ⟨d, none, []⟩
  | some path =>
      if is_modified d then
        match fsWrite path d.buffer with
        | .ok => ⟨{ d with saved_text := d.buffer }, some (path, d.buffer), []⟩
        | .failure detail => ⟨d, none, ["Autosave failed: " ++ detail]⟩
      else ⟨d, none, []⟩

/-!
Orchestrator installer triggers (`MainWindow._auto_installer_tick` and
`MainWindow.install_missing_current` of `Artfical_Code_Editor.py`).
`self.installer` is modelled by `Option Bool`: `none` when no
`InstallerThread` object exists, `some b` when one exists with
`isRunning() = b`.
-/

/-- Model of `", ".join(missing)`. -/
def joinComma : List String → String
  | [] => ""
  | [x] => x
  | x :: rest => x ++ ", " ++ joinComma rest

/-- The busy notice `_auto_installer_tick` logs instead of starting a new
installer. -/
def autoBusyLine : String := "\nAuto-installer: installer busy, skipping this tick.\n"

/-- The log line `_auto_installer_tick` emits when it starts an installer. -/
def autoFoundLine (missing : List String) : String :=
  "\nAuto-installer: found missing packages: " ++ joinComma missing ++ "\n"

/-- The log line `install_missing_current` emits when it starts an
installer. -/
def installingLine (missing : List String) : String :=
  "\nInstalling missing: " ++ joinComma missing ++ "\n"

/-- Result of one installer trigger: the `self.installer` slot afterwards,
the log lines appended to the output area, and the package list handed to
a newly started `InstallerThread` (`none` when no thread was started). -/
structure TriggerResult where
  slot : Option Bool
  logs : List String
  started : Option (List String)
deriving DecidableEq

/-- Translation of `_auto_installer_tick`: compute the missing list; when
non-empty, refuse with the busy notice if an installer exists and is
running, otherwise log the found line and start a new `InstallerThread`
on the missing list. -/
def auto_installer_tick (slot : Option Bool) (env : String → FindSpecResult)
    (parse : Option (List PyNode)) : TriggerResult :=
  let missing := missingPackages env parse
  if missing = [] then ⟨slot, [], none⟩
  else if slot = some true then ⟨slot, [autoBusyLine], none⟩
  else ⟨some true, [autoFoundLine missing], some missing⟩

/-- Translation of `install_missing_current`: compute the missing list;
when empty show the info dialog and stop; otherwise log the installing
line and start a new `InstallerThread` on the missing list — with no
check of a still-running installer. -/
def install_missing_current (slot : Option Bool) (env : String → FindSpecResult)
    (parse : Option (List PyNode)) : TriggerResult :=
  let missing := missingPackages env parse
  if missing = [] then ⟨slot, [], none⟩
  else ⟨some true, [installingLine missing], some missing⟩

/-!
Process Sessions (`MainWindow.run_current_file` and
`MainWindow.on_term_command` of `Artfical_Code_Editor.py`).  Each role
(`proc_run`, `proc_term`) holds an optional reference to a `QProcess`.
On start, the prior process of the same role is killed if its state is
not `NotRunning`, then a fresh process is spawned and the reference
replaced.  External processes may also exit naturally at any time.  We
model the collection of all processes ever spawned as a world, with fresh
process identifiers, and the two invocation paths plus natural exit as a
step relation.
-/

/-- The two Process Session roles. -/
inductive Role where
  | runScript
  | termCmd
deriving DecidableEq

/-- One external process: its identifier, the role it was spawned under,
and whether it is still alive (`state() != QProcess.NotRunning`). -/
structure Proc where
  pid : Nat
  role : Role
  alive : Bool
deriving DecidableEq

/-- The world: every process spawned so far, a fresh-identifier counter,
and the orchestrator's per-role references `self.proc_run` /
`self.proc_term`. -/
structure World where
  procs : List Proc
  nextPid : Nat
  procRun : Option Nat
  procTerm : Option Nat
deriving DecidableEq

/-- The orchestrator's reference for a role. -/
def getRef (w : World) : Role → Option Nat
  | .runScript => w.procRun
  | .termCmd => w.procTerm

/-- Replace the orchestrator's reference for a role. -/
def setRef (w : World) : Role → Option Nat → World
  | .runScript, v => { w with procRun := v }
  | .termCmd, v => { w with procTerm := v }

/-- Whether the process with the given identifier is alive in a process
list (dead when no such process exists). -/
def aliveIn (l : List Proc) (pid : Nat) : Bool :=
  match l.find? (fun p => p.pid == pid) with
  | some p => p.alive
  | none => false

/-- Model of `state() != QProcess.NotRunning` for the process referenced
by `pid`. -/
def isAlive (w : World) (pid : Nat) : Bool := aliveIn w.procs pid

/-- Effect of `kill()` on one process record. -/
def killProc (p : Proc) (pid : Nat) : Proc :=
  if p.pid = pid then { p with alive := false } else p

/-- Model of `QProcess.kill()` (also of a natural exit): the process with
the given identifier stops being alive; nothing else changes. -/
def kill (w : World) (pid : Nat) : World :=
  { w with procs := w.procs.map (fun p => killProc p pid) }

/-- The kill prologue shared by `run_current_file` and `on_term_command`:
if the role's prior process exists and its state is not `NotRunning`,
kill it. -/
def clearRole (w : World) (r : Role) : World :=
  match getRef w r with
  | some pid => if isAlive w pid then kill w pid else w
  | none => w

/-- After the kill prologue (`clearRole`), a fresh process is created for
the role and stored in the role's reference. -/
def startSession (w : World) (r : Role) : World :=
  let w1 := clearRole w r
  setRef { w1 with procs := w1.procs ++ [⟨w.nextPid, r, true⟩], nextPid := w.nextPid + 1 }
    r (some w.nextPid)

/-- Events of the session subsystem: the orchestrator starts a session in
a role, or some external process exits on its own. -/
inductive SessionStep where
  | start (r : Role)
  | procExit (pid : Nat)
deriving DecidableEq

/-- One step of the session subsystem. -/
def stepWorld (w : World) : SessionStep → World
  | .start r => startSession w r
  | .procExit pid => kill w pid

/-- The initial world: no process spawned, no reference held. -/
def initWorld : World := ⟨[], 0, none, none⟩

/-- The world reached after a sequence of steps from the initial world. -/
def runSteps (ss : List SessionStep) : World := ss.foldl stepWorld initWorld

/-!
Helper lemmas about the import scanner.
-/

/-- Membership in the set after `set.add`. -/
theorem mem_addPkg {s : List String} {x y : String} :
    x ∈ addPkg s y ↔ x ∈ s ∨ x = y := by
  unfold addPkg
  by_cases hy : y ∈ s
  · simp only [if_pos hy]
    constructor
    · exact Or.inl
    · rintro (h | rfl)
      · exact h
      · exact hy
  · simp [if_neg hy]

/-- Membership after folding `set.add` over the aliases of one
`ast.Import`. -/
theorem mem_foldl_addPkg {x : String} (names : List String) (s : List String) :
    x ∈ names.foldl (fun acc n => addPkg acc (topSegment n)) s ↔
      x ∈ s ∨ ∃ n ∈ names, topSegment n = x := by
  induction names generalizing s with
  | nil => simp
  | cons n rest ih =>
      rw [List.foldl_cons, ih, mem_addPkg]
      constructor
      · rintro ((h | rfl) | ⟨m, hm, rfl⟩)
        · exact Or.inl h
        · exact Or.inr ⟨n, List.mem_cons_self n rest, rfl⟩
        · exact Or.inr ⟨m, List.mem_cons_of_mem n hm, rfl⟩
      · rintro (h | ⟨m, hm, rfl⟩)
        · exact Or.inl (Or.inl h)
        · rcases List.mem_cons.mp hm with rfl | hm
          · exact Or.inl (Or.inr rfl)
          · exact Or.inr ⟨m, hm, rfl⟩

/-- Membership after one step of the scanner walk. -/
theorem mem_scanNode {x : String} (s : List String) (node : PyNode) :
    x ∈ scanNode s node ↔ x ∈ s ∨ x ∈ nodeModules node := by
  cases node with
  | imp names ln => simp [scanNode, nodeModules, mem_foldl_addPkg, eq_comm]
  | impFrom m ln =>
      cases m with
      | none => simp [scanNode, nodeModules]
      | some mod => simp [scanNode, nodeModules, mem_addPkg]
  | funcDef n ln => simp [scanNode, nodeModules]
  | classDef n ln => simp [scanNode, nodeModules]
  | callName f seg ln => simp [scanNode, nodeModules]
  | other => simp [scanNode, nodeModules]

/-- Membership after the whole scanner walk, from any accumulator. -/
theorem mem_foldl_scanNode {x : String} (nodes : List PyNode) (s : List String) :
    x ∈ nodes.foldl scanNode s ↔ x ∈ s ∨ ∃ node ∈ nodes, x ∈ nodeModules node := by
  induction nodes generalizing s with
  | nil => simp
  | cons node rest ih =>
      rw [List.foldl_cons, ih, mem_scanNode]
      constructor
      · rintro ((h | h) | ⟨nd, hnd, h⟩)
        · exact Or.inl h
        · exact Or.inr ⟨node, List.mem_cons_self node rest, h⟩
        · exact Or.inr ⟨nd, List.mem_cons_of_mem node hnd, h⟩
      · rintro (h | ⟨nd, hnd, h⟩)
        · exact Or.inl (Or.inl h)
        · rcases List.mem_cons.mp hnd with rfl | hnd
          · exact Or.inl (Or.inr h)
          · exact Or.inr ⟨nd, hnd, h⟩

/-- Membership in the scanned module set of a successfully parsed buffer. -/
theorem mem_scan_imports {x : String} (nodes : List PyNode) :
    x ∈ scan_imports_ast (some nodes) ↔ ∃ node ∈ nodes, x ∈ nodeModules node := by
  rw [scan_imports_ast, mem_foldl_scanNode]
  simp

/-- C3: for every input, `Analyze` (`outline_from_python`) and
`ExtractModules` (`scan_imports_ast`) are total functions of the parse
result (they never propagate a parse error), and on every syntactically
invalid input — a parse result of `none` — they return the empty outline
(all four sequences empty) and the empty module set. -/
theorem c3_parse_failure_empty :
    scan_imports_ast none = [] ∧
      outline_from_python none = emptyOutline ∧
        (outline_from_python none).imports = [] ∧
          (outline_from_python none).prints = [] ∧
            (outline_from_python none).defs = [] ∧
              (outline_from_python none).classes = [] :=
  ⟨rfl, rfl, rfl, rfl, rfl, rfl⟩

/-- C7: a name is in the extracted module set exactly when some walked
node contributes it, where a plain import contributes the top-level
segment of each alias and a from-import the top-level segment of its
module path (`nodeModules`); concretely, the parse of
`"import os.path\nimport sys"` yields the set containing exactly `os` and
`sys`, and the parse of `"from collections import OrderedDict"` yields
the set containing exactly `collections`. -/
theorem c7_extract_modules_top_segment :
    (∀ (nodes : List PyNode) (x : String),
        x ∈ scan_imports_ast (some nodes) ↔ ∃ node ∈ nodes, x ∈ nodeModules node) ∧
      scan_imports_ast (some [PyNode.imp ["os.path"] 1, PyNode.imp ["sys"] 2]) = ["os", "sys"] ∧
        scan_imports_ast (some [PyNode.impFrom (some "collections") 1]) = ["collections"] :=
  ⟨fun nodes _ => mem_scan_imports nodes, by decide, by decide⟩

/-- C9: for every successfully parsed source, each of the four outline
sequences produced by `Analyze` is sorted by non-decreasing line number. -/
theorem c9_outline_sorted (nodes : List PyNode) :
    List.Sorted lineLe (outline_from_python (some nodes)).imports ∧
      List.Sorted lineLe (outline_from_python (some nodes)).prints ∧
        List.Sorted lineLe (outline_from_python (some nodes)).defs ∧
          List.Sorted lineLe (outline_from_python (some nodes)).classes :=
  ⟨List.sorted_insertionSort lineLe _, List.sorted_insertionSort lineLe _,
    List.sorted_insertionSort lineLe _, List.sorted_insertionSort lineLe _⟩

/-- C10: a from-import with an absent module path (`node.module is None`,
as in `from . import name`) contributes nothing to the scanner — the walk
step leaves the set unchanged and the scanned set of a source starting
with such a node equals that of the rest — while a plain import
contributes exactly the top-level segment of each alias and a from-import
with a named module path exactly the top-level segment of that path. -/
theorem c10_relative_imports :
    (∀ (pkgs : List String) (ln : Nat), scanNode pkgs (PyNode.impFrom none ln) = pkgs) ∧
      (∀ (nodes : List PyNode) (ln : Nat),
          scan_imports_ast (some (PyNode.impFrom none ln :: nodes)) =
            scan_imports_ast (some nodes)) ∧
        (∀ (names : List String) (ln : Nat),
            nodeModules (PyNode.imp names ln) = names.map topSegment) ∧
          (∀ (m : String) (ln : Nat),
              nodeModules (PyNode.impFrom (some m) ln) = [topSegment m]) :=
  ⟨fun _ _ => rfl, fun _ _ => rfl, fun _ _ => rfl, fun _ _ => rfl⟩

/-!
Helper lemmas about the Installer Task.
-/

/-- The `succeeded` list is the input filtered to the packages whose
install exits 0, in input order. -/
theorem installerRun_succ (exec : String → InstallResult) (mods : List String) :
    (installerRun exec mods).2.1 = mods.filter (fun p => installSucceeds exec p) := by
  induction mods with
  | nil => rfl
  | cons pkg rest ih =>
      by_cases h : installSucceeds exec pkg <;> simp [installerRun, ih, h]

/-- The `failed` list is the input filtered to the packages whose install
does not exit 0 (including launch failures), in input order. -/
theorem installerRun_fail (exec : String → InstallResult) (mods : List String) :
    (installerRun exec mods).2.2 = mods.filter (fun p => !installSucceeds exec p) := by
  induction mods with
  | nil => rfl
  | cons pkg rest ih =>
      by_cases h : installSucceeds exec pkg <;> simp [installerRun, ih, h]

/-- The log stream is the concatenation, in input order, of each
package's per-iteration log block. -/
theorem installerRun_logs (exec : String → InstallResult) (mods : List String) :
    (installerRun exec mods).1 = mods.flatMap (moduleLogs exec) := by
  induction mods with
  | nil => rfl
  | cons pkg rest ih => simp [installerRun, ih]

/-- C2: for every oracle of per-package install outcomes and every input
list, `InstallerThread.run` reaches its terminal state with exactly one
(succeeded, failed) pair in which the two lists together are a
permutation of the input (every input module classified exactly once),
are disjoint, and cover the input as a set; and a package whose child
process fails to launch is classified failed rather than aborting the
task. -/
theorem c2_installer_partition :
    (∀ (exec : String → InstallResult) (mods : List String),
        List.Perm ((installerRun exec mods).2.1 ++ (installerRun exec mods).2.2) mods) ∧
      (∀ (exec : String → InstallResult) (mods : List String) (x : String),
          ¬(x ∈ (installerRun exec mods).2.1 ∧ x ∈ (installerRun exec mods).2.2)) ∧
        (∀ (exec : String → InstallResult) (mods : List String) (x : String),
            x ∈ mods ↔
              x ∈ (installerRun exec mods).2.1 ∨ x ∈ (installerRun exec mods).2.2) ∧
          (∀ (exec : String → InstallResult) (mods : List String) (pkg d : String),
              exec pkg = InstallResult.launchFailure d → pkg ∈ mods →
                pkg ∈ (installerRun exec mods).2.2) := by
  refine ⟨?_, ?_, ?_, ?_⟩
  · intro exec mods
    rw [installerRun_succ, installerRun_fail]
    exact List.filter_append_perm _ mods
  · intro exec mods x ⟨hs, hf⟩
    rw [installerRun_succ] at hs
    rw [installerRun_fail] at hf
    have h1 := List.of_mem_filter hs
    have h2 := List.of_mem_filter hf
    simp only [Bool.not_eq_true'] at h2
    rw [h2] at h1
    exact Bool.false_ne_true h1
  · intro exec mods x
    have hperm := List.filter_append_perm (fun p => installSucceeds exec p) mods
    rw [installerRun_succ, installerRun_fail, ← hperm.mem_iff, List.mem_append]
  · intro exec mods pkg d hlaunch hmem
    rw [installerRun_fail]
    refine List.mem_filter.mpr ⟨hmem, ?_⟩
    simp [installSucceeds, hlaunch]

/-- Oracle for the witness of C2: spawning the installer child process
always raises. -/
def execL : String → InstallResult := fun _ =>
  InstallResult.launchFailure "pip executable missing"

/-- Witness for C2: concretely, a package whose installer cannot launch
ends up classified failed. -/
theorem c2_installer_partition_witness :
    execL "pkgL" = InstallResult.launchFailure "pip executable missing" ∧
      "pkgL" ∈ ["pkgL"] ∧ "pkgL" ∈ (installerRun execL ["pkgL"]).2.2 :=
  ⟨rfl, by decide,
    c2_installer_partition.2.2.2 execL ["pkgL"] "pkgL" "pip executable missing" rfl (by decide)⟩

/-- Oracle for the concrete instance of C4: installing `pkgA` exits 0,
installing any other package exits 1 with an error on stderr. -/
def exec4 : String → InstallResult := fun p =>
  if p = "pkgA" then InstallResult.exited 0 "" ""
  else InstallResult.exited 1 "" "ERROR: no matching distribution"

/-- C4: the Installer Task processes its input strictly in order — its
log stream is the in-order concatenation of per-package blocks, each
beginning with that package's starting line — and classifies each package
by the exit status of its install process (zero: succeeded, non-zero:
failed, with the stripped stderr logged if non-empty, as recorded in
`moduleLogs`); concretely, on `["pkgA", "pkgB"]` where pkgA's install
exits 0 and pkgB's exits 1, the result is succeeded `["pkgA"]`, failed
`["pkgB"]`, with exactly the two starting lines in input order followed
by pkgB's stderr line. -/
theorem c4_installer_order :
    (∀ (exec : String → InstallResult) (mods : List String),
        (installerRun exec mods).1 = mods.flatMap (moduleLogs exec)) ∧
      (∀ (exec : String → InstallResult) (pkg : String),
          (moduleLogs exec pkg).head? = some (startLine pkg)) ∧
        (∀ (exec : String → InstallResult) (mods : List String),
            (installerRun exec mods).2.1 = mods.filter (fun p => installSucceeds exec p) ∧
              (installerRun exec mods).2.2 =
                mods.filter (fun p => !installSucceeds exec p)) ∧
          installerRun exec4 ["pkgA", "pkgB"] =
            ([startLine "pkgA", startLine "pkgB", "ERROR: no matching distribution"],
              ["pkgA"], ["pkgB"]) :=
  ⟨installerRun_logs, fun _ _ => rfl,
    fun exec mods => ⟨installerRun_succ exec mods, installerRun_fail exec mods⟩, by decide⟩

/-!
Helper lemmas about the autosave tick.
-/

/-- Without a backing path the tick does nothing. -/
theorem autosave_no_path (fsWrite : String → String → WriteOutcome) (d : Document)
    (h : d.file_path = none) : autosave fsWrite d = ⟨d, none, []⟩ := by
  unfold autosave
  rw [h]

/-- With an unchanged buffer the tick does nothing. -/
theorem autosave_unmodified (fsWrite : String → String → WriteOutcome) (d : Document)
    (p : String) (hp : d.file_path = some p) (h : d.buffer = d.saved_text) :
    autosave fsWrite d = ⟨d, none, []⟩ := by
  unfold autosave
  rw [hp]
  have hm : is_modified d = false := by simp [is_modified, h]
  rw [hm]
  simp

/-- With a changed buffer and a succeeding write, the buffer is written
and the snapshot updated to match. -/
theorem autosave_write_ok (fsWrite : String → String → WriteOutcome) (d : Document)
    (p : String) (hp : d.file_path = some p) (h : d.buffer ≠ d.saved_text)
    (hok : fsWrite p d.buffer = WriteOutcome.ok) :
    autosave fsWrite d = ⟨{ d with saved_text := d.buffer }, some (p, d.buffer), []⟩ := by
  unfold autosave
  rw [hp]
  have hm : is_modified d = true := by simp [is_modified, h]
  rw [hm]
  simp [hok]

/-- With a changed buffer and a failing write, the failure is caught and
logged and the document is left unchanged. -/
theorem autosave_write_fail (fsWrite : String → String → WriteOutcome) (d : Document)
    (p detail : String) (hp : d.file_path = some p) (h : d.buffer ≠ d.saved_text)
    (hfail : fsWrite p d.buffer = WriteOutcome.failure detail) :
    autosave fsWrite d = ⟨d, none, ["Autosave failed: " ++ detail]⟩ := by
  unfold autosave
  rw [hp]
  have hm : is_modified d = true := by simp [is_modified, h]
  rw [hm]
  simp [hfail]

/-- C5: on an autosave tick, a document without a backing location writes
nothing; one whose buffer equals the snapshot writes nothing; one with a
changed buffer is written to its backing location with the snapshot
updated to match, so the immediately following tick is a no-op; a write
failure is caught and logged, leaves the document unchanged, and a later
tick whose write succeeds persists the buffer normally (the scheduler is
never stopped). -/
theorem c5_autosave_tick :
    (∀ (fsWrite : String → String → WriteOutcome) (d : Document),
        d.file_path = none → autosave fsWrite d = ⟨d, none, []⟩) ∧
      (∀ (fsWrite : String → String → WriteOutcome) (d : Document) (p : String),
          d.file_path = some p → d.buffer = d.saved_text →
            autosave fsWrite d = ⟨d, none, []⟩) ∧
        (∀ (fsWrite : String → String → WriteOutcome) (d : Document) (p : String),
            d.file_path = some p → d.buffer ≠ d.saved_text →
              fsWrite p d.buffer = WriteOutcome.ok →
                autosave fsWrite d =
                  ⟨{ d with saved_text := d.buffer }, some (p, d.buffer), []⟩) ∧
          (∀ (fsWrite fs2 : String → String → WriteOutcome) (d : Document) (p : String),
              d.file_path = some p → d.buffer ≠ d.saved_text →
                fsWrite p d.buffer = WriteOutcome.ok →
                  autosave fs2 (autosave fsWrite d).doc =
                    ⟨(autosave fsWrite d).doc, none, []⟩) ∧
            (∀ (fsWrite : String → String → WriteOutcome) (d : Document) (p detail : String),
                d.file_path = some p → d.buffer ≠ d.saved_text →
                  fsWrite p d.buffer = WriteOutcome.failure detail →
                    autosave fsWrite d = ⟨d, none, ["Autosave failed: " ++ detail]⟩) ∧
              (∀ (fsWrite fs2 : String → String → WriteOutcome) (d : Document)
                  (p detail : String),
                  d.file_path = some p → d.buffer ≠ d.saved_text →
                    fsWrite p d.buffer = WriteOutcome.failure detail →
                      fs2 p d.buffer = WriteOutcome.ok →
                        autosave fs2 (autosave fsWrite d).doc =
                          ⟨{ d with saved_text := d.buffer }, some (p, d.buffer), []⟩) := by
  refine ⟨autosave_no_path, autosave_unmodified, autosave_write_ok, ?_, autosave_write_fail, ?_⟩
  · intro fsWrite fs2 d p hp hne hok
    rw [autosave_write_ok fsWrite d p hp hne hok]
    exact autosave_unmodified fs2 _ p hp rfl
  · intro fsWrite fs2 d p detail hp hne hfail hok
    rw [autosave_write_fail fsWrite d p detail hp hne hfail]
    exact autosave_write_ok fs2 d p hp hne hok

/-- Document for the C5 witness: a backed file whose buffer changed. -/
def d5 : Document := ⟨some "/home/u/a.py", "print(1)", ""⟩

/-- Always-succeeding filesystem for the C5 witness. -/
def fsOk : String → String → WriteOutcome := fun _ _ => WriteOutcome.ok

/-- Always-failing filesystem for the C5 witness. -/
def fsBad : String → String → WriteOutcome := fun _ _ => WriteOutcome.failure "disk full"

/-- Witness for C5: the successful-write and caught-failure cases at a
concrete document. -/
theorem c5_autosave_tick_witness :
    d5.file_path = some "/home/u/a.py" ∧ d5.buffer ≠ d5.saved_text ∧
      fsOk "/home/u/a.py" d5.buffer = WriteOutcome.ok ∧
        autosave fsOk d5 =
          ⟨{ d5 with saved_text := d5.buffer }, some ("/home/u/a.py", d5.buffer), []⟩ ∧
          fsBad "/home/u/a.py" d5.buffer = WriteOutcome.failure "disk full" ∧
            autosave fsBad d5 = ⟨d5, none, ["Autosave failed: disk full"]⟩ :=
  ⟨rfl, by decide, rfl,
    c5_autosave_tick.2.2.1 fsOk d5 "/home/u/a.py" rfl (by decide) rfl, rfl,
    c5_autosave_tick.2.2.2.2.1 fsBad d5 "/home/u/a.py" "disk full" rfl (by decide) rfl⟩

/-!
Claims about the Dependency Resolver and the Orchestrator's installer
triggers.
-/

/-- Availability environment for the C8 instance: `sys` resolves, every
other name does not. -/
def env8 : String → FindSpecResult := fun p =>
  if p = "sys" then FindSpecResult.found else FindSpecResult.notFound

/-- Availability environment whose module-resolution always raises. -/
def envRaises : String → FindSpecResult := fun _ => FindSpecResult.raises

/-- C8: the Missing computation returns exactly the input names whose
availability check is false, in lexicographic order; the availability
check returns false rather than raising when module resolution errors;
and on the set containing `sys` (available) and
`definitely_not_a_real_pkg_xyz` (unavailable) it returns exactly the
latter. -/
theorem c8_missing_packages :
    (∀ (env : String → FindSpecResult) (pkgs : List String) (x : String),
        x ∈ missingOf env pkgs ↔ x ∈ pkgs ∧ is_package_installed env x = false) ∧
      (∀ (env : String → FindSpecResult) (pkgs : List String),
          List.Sorted pyLe (missingOf env pkgs)) ∧
        (∀ (env : String → FindSpecResult) (pkg : String),
            env pkg = FindSpecResult.raises → is_package_installed env pkg = false) ∧
          missingOf env8 ["sys", "definitely_not_a_real_pkg_xyz"] =
            ["definitely_not_a_real_pkg_xyz"] := by
  refine ⟨?_, ?_, ?_, by decide⟩
  · intro env pkgs x
    unfold missingOf pySorted
    rw [List.mem_filter, (List.perm_insertionSort pyLe pkgs).mem_iff]
    simp
  · intro env pkgs
    exact List.Pairwise.filter _ (List.sorted_insertionSort pyLe pkgs)
  · intro env pkg h
    simp [is_package_installed, h]

/-- Witness for C8: a raising resolution is reported as unavailable. -/
theorem c8_missing_packages_witness :
    envRaises "numpy" = FindSpecResult.raises ∧
      is_package_installed envRaises "numpy" = false :=
  ⟨rfl, c8_missing_packages.2.2.1 envRaises "numpy" rfl⟩

/-- Availability environment for the C1 instance: nothing resolves. -/
def env1 : String → FindSpecResult := fun _ => FindSpecResult.notFound

/-- Parse for the C1 instance: a buffer importing one missing package. -/
def parse1 : Option (List PyNode) := some [PyNode.imp ["requests"] 1]

/-- C1 fails on the code: the manual install-missing trigger has no busy
check.  At a concrete state where an installer thread exists and is still
running (`slot = some true`) and the buffer has a missing import,
`install_missing_current` starts a new installer anyway and its log
contains no busy notice — refuting the claim that every trigger refuses
while an installer is running. -/
theorem c1_single_flight_counterexample :
    (install_missing_current (some true) env1 parse1).started = some ["requests"] ∧
      autoBusyLine ∉ (install_missing_current (some true) env1 parse1).logs := by
  decide

/-- C1 (amended): only the periodic dependency-scan tick enforces the
single-flight policy — while the installer thread is running and missing
packages exist, the tick starts no new installer and logs exactly the
busy notice; the manual install-missing request, by contrast, starts a
new installer on the missing list whenever it is non-empty, regardless of
a still-running installer. -/
theorem c1_single_flight_amended :
    (∀ (slot : Option Bool) (env : String → FindSpecResult) (parse : Option (List PyNode)),
        missingPackages env parse ≠ [] → slot = some true →
          auto_installer_tick slot env parse = ⟨slot, [autoBusyLine], none⟩) ∧
      (∀ (slot : Option Bool) (env : String → FindSpecResult) (parse : Option (List PyNode)),
          missingPackages env parse ≠ [] →
            install_missing_current slot env parse =
              ⟨some true, [installingLine (missingPackages env parse)],
                some (missingPackages env parse)⟩) := by
  constructor
  · intro slot env parse hne hrun
    unfold auto_installer_tick
    rw [if_neg hne, if_pos hrun]
  · intro slot env parse hne
    unfold install_missing_current
    rw [if_neg hne]

/-- Witness for the amended C1: with a running installer and a missing
import, the tick refuses with the busy notice while the manual request
starts a new installer. -/
theorem c1_single_flight_amended_witness :
    missingPackages env1 parse1 ≠ [] ∧
      auto_installer_tick (some true) env1 parse1 = ⟨some true, [autoBusyLine], none⟩ ∧
        install_missing_current (some true) env1 parse1 =
          ⟨some true, [installingLine (missingPackages env1 parse1)],
            some (missingPackages env1 parse1)⟩ :=
  ⟨by decide, c1_single_flight_amended.1 (some true) env1 parse1 (by decide) rfl,
    c1_single_flight_amended.2 (some true) env1 parse1 (by decide)⟩

/-!
Helper lemmas about the Process Session world.
-/

/-- Killing never changes a process identifier. -/
theorem killProc_pid (p : Proc) (pid : Nat) : (killProc p pid).pid = p.pid := by
  unfold killProc
  split <;> rfl

/-- Killing never changes a process role. -/
theorem killProc_role (p : Proc) (pid : Nat) : (killProc p pid).role = p.role := by
  unfold killProc
  split <;> rfl

/-- A process alive after a kill was alive before it. -/
theorem killProc_alive (p : Proc) (pid : Nat) (h : (killProc p pid).alive = true) :
    p.alive = true := by
  unfold killProc at h
  split at h
  · exact absurd h Bool.false_ne_true
  · exact h

/-- Killing a different identifier leaves the record unchanged. -/
theorem killProc_of_ne (p : Proc) (pid : Nat) (h : p.pid ≠ pid) : killProc p pid = p := by
  unfold killProc
  rw [if_neg h]

/-- Killing an already-dead record leaves it unchanged. -/
theorem killProc_of_dead (p : Proc) (pid : Nat) (h : p.alive = false) : killProc p pid = p := by
  unfold killProc
  split
  · cases p
    simp_all
  · rfl

/-- The targeted record is dead after a kill. -/
theorem killProc_self (p : Proc) (pid : Nat) (h : p.pid = pid) :
    (killProc p pid).alive = false := by
  unfold killProc
  rw [if_pos h]

/-- Killing does not touch the per-role references. -/
theorem getRef_kill (w : World) (pid : Nat) (r : Role) : getRef (kill w pid) r = getRef w r := by
  cases r <;> rfl

/-- Replacing one role's reference does not touch the process list. -/
theorem setRef_procs (w : World) (r : Role) (v : Option Nat) : (setRef w r v).procs = w.procs := by
  cases r <;> rfl

/-- Replacing one role's reference does not touch the counter. -/
theorem setRef_nextPid (w : World) (r : Role) (v : Option Nat) :
    (setRef w r v).nextPid = w.nextPid := by
  cases r <;> rfl

/-- Reading a reference after replacing one. -/
theorem getRef_setRef (w : World) (r r2 : Role) (v : Option Nat) :
    getRef (setRef w r v) r2 = if r2 = r then v else getRef w r2 := by
  cases r <;> cases r2 <;> simp [getRef, setRef]

/-- In a list with pairwise-distinct identifiers, a process is determined
by its identifier. -/
theorem pid_unique {l : List Proc}
    (hl : List.Pairwise (fun p q : Proc => p.pid ≠ q.pid) l) {p q : Proc}
    (hp : p ∈ l) (hq : q ∈ l) (h : p.pid = q.pid) : p = q := by
  induction l with
  | nil => cases hp
  | cons x xs ih =>
      rw [List.pairwise_cons] at hl
      rcases List.mem_cons.mp hp with rfl | hp2 <;> rcases List.mem_cons.mp hq with rfl | hq2
      · rfl
      · exact absurd h (hl.1 q hq2)
      · exact absurd h.symm (hl.1 p hp2)
      · exact ih hl.2 hp2 hq2

/-- In a list with pairwise-distinct identifiers, the aliveness lookup of
a member's identifier returns that member's aliveness. -/
theorem aliveIn_of_mem {l : List Proc}
    (hl : List.Pairwise (fun p q : Proc => p.pid ≠ q.pid) l) {p : Proc} (hp : p ∈ l) :
    aliveIn l p.pid = p.alive := by
  unfold aliveIn
  cases hfind : l.find? (fun q => q.pid == p.pid) with
  | none =>
      have := List.find?_eq_none.mp hfind p hp
      simp at this
  | some q =>
      have hqp : q.pid = p.pid := by
        have := List.find?_some hfind
        simpa using this
      have hq : q ∈ l := List.mem_of_find?_eq_some hfind
      rw [pid_unique hl hq hp hqp]

/-- After mapping a kill over a list, the targeted identifier is not
alive. -/
theorem aliveIn_map_kill : ∀ (l : List Proc) (pid : Nat),
    aliveIn (l.map (fun p => killProc p pid)) pid = false
  | [], _ => rfl
  | p :: l, pid => by
      by_cases h : p.pid = pid
      · unfold aliveIn
        rw [List.map_cons, List.find?_cons_of_pos]
        · exact killProc_self p pid h
        · simp [killProc_pid, h]
      · unfold aliveIn
        rw [List.map_cons, List.find?_cons_of_neg]
        · exact aliveIn_map_kill l pid
        · simp [killProc_pid, h]

/-- Appending a process with a different identifier does not change an
aliveness lookup. -/
theorem aliveIn_append_single : ∀ (l : List Proc) (np : Proc) (pid : Nat),
    np.pid ≠ pid → aliveIn (l ++ [np]) pid = aliveIn l pid
  | [], np, pid, h => by
      unfold aliveIn
      rw [List.nil_append, List.find?_cons_of_neg, List.find?_nil]
      simp [h]
  | p :: l, np, pid, h => by
      by_cases hp : p.pid = pid
      · unfold aliveIn
        rw [List.cons_append, List.find?_cons_of_pos _ (by simp [hp]),
          List.find?_cons_of_pos _ (by simp [hp])]
      · unfold aliveIn
        rw [List.cons_append, List.find?_cons_of_neg _ (by simp [hp]),
          List.find?_cons_of_neg _ (by simp [hp])]
        exact aliveIn_append_single l np pid h

/-- Invariant of the session world: process identifiers are bounded by
the counter and pairwise distinct, every alive process is the one its
role's reference designates, and references are bounded by the counter. -/
def WorldInv (w : World) : Prop :=
  (∀ p ∈ w.procs, p.pid < w.nextPid) ∧
    List.Pairwise (fun p q : Proc => p.pid ≠ q.pid) w.procs ∧
      (∀ p ∈ w.procs, p.alive = true → getRef w p.role = some p.pid) ∧
        (∀ (r : Role) (pid : Nat), getRef w r = some pid → pid < w.nextPid)

/-- The initial world satisfies the invariant. -/
theorem inv_init : WorldInv initWorld := by
  refine ⟨?_, List.Pairwise.nil, ?_, ?_⟩
  · intro p hp
    cases hp
  · intro p hp
    cases hp
  · intro r pid h
    cases r <;> cases h

/-- A kill preserves the invariant. -/
theorem inv_kill (w : World) (pid : Nat) (hw : WorldInv w) : WorldInv (kill w pid) := by
  obtain ⟨h1, h2, h3, h4⟩ := hw
  refine ⟨?_, ?_, ?_, ?_⟩
  · intro p hp
    obtain ⟨q, hq, rfl⟩ := List.mem_map.mp hp
    rw [killProc_pid]
    exact h1 q hq
  · exact h2.map _ (fun a b hab => by rwa [killProc_pid, killProc_pid])
  · intro p hp halive
    obtain ⟨q, hq, rfl⟩ := List.mem_map.mp hp
    rw [killProc_pid, killProc_role, getRef_kill]
    exact h3 q hq (killProc_alive q pid halive)
  · intro r pid2 h
    rw [getRef_kill] at h
    exact h4 r pid2 h

/-- The kill prologue preserves the invariant. -/
theorem inv_clearRole (w : World) (r : Role) (hw : WorldInv w) : WorldInv (clearRole w r) := by
  unfold clearRole
  split
  · split
    · exact inv_kill w _ hw
    · exact hw
  · exact hw

/-- The kill prologue does not touch the references. -/
theorem getRef_clearRole (w : World) (r r2 : Role) :
    getRef (clearRole w r) r2 = getRef w r2 := by
  unfold clearRole
  split
  · split
    · rw [getRef_kill]
    · rfl
  · rfl

/-- The kill prologue does not touch the counter. -/
theorem nextPid_clearRole (w : World) (r : Role) : (clearRole w r).nextPid = w.nextPid := by
  unfold clearRole
  split
  · split
    · rfl
    · rfl
  · rfl

/-- The kill prologue when the role holds no reference. -/
theorem clearRole_of_none {w : World} {r : Role} (hr : getRef w r = none) :
    clearRole w r = w := by
  unfold clearRole
  rw [hr]

/-- The kill prologue when the role's referenced process is alive. -/
theorem clearRole_of_alive {w : World} {r : Role} {pid : Nat}
    (hr : getRef w r = some pid) (ha : isAlive w pid = true) :
    clearRole w r = kill w pid := by
  unfold clearRole
  rw [hr]
  show (if isAlive w pid = true then kill w pid else w) = kill w pid
  rw [if_pos ha]

/-- The kill prologue when the role's referenced process already
exited. -/
theorem clearRole_of_dead {w : World} {r : Role} {pid : Nat}
    (hr : getRef w r = some pid) (ha : isAlive w pid = false) :
    clearRole w r = w := by
  unfold clearRole
  rw [hr]
  show (if isAlive w pid = true then kill w pid else w) = w
  rw [ha]
  simp

/-- After the kill prologue for a role, no process of that role is
alive. -/
theorem clearRole_no_alive (w : World) (r : Role) (hw : WorldInv w) :
    ∀ p ∈ (clearRole w r).procs, p.role = r → p.alive = false := by
  obtain ⟨h1, h2, h3, h4⟩ := hw
  intro p hp hrole
  cases halive : p.alive
  · rfl
  · exfalso
    cases hr : getRef w r with
    | none =>
        rw [clearRole_of_none hr] at hp
        have href := h3 p hp halive
        rw [hrole, hr] at href
        cases href
    | some pid =>
        cases ha : isAlive w pid with
        | true =>
            rw [clearRole_of_alive hr ha] at hp
            obtain ⟨q, hq, rfl⟩ := List.mem_map.mp hp
            have hqalive : q.alive = true := killProc_alive q pid halive
            have href := h3 q hq hqalive
            rw [killProc_role] at hrole
            rw [hrole, hr] at href
            have hqpid : q.pid = pid := by
              injection href with h
              exact h.symm
            rw [killProc_self q pid hqpid] at halive
            exact Bool.false_ne_true halive
        | false =>
            rw [clearRole_of_dead hr ha] at hp
            have href := h3 p hp halive
            rw [hrole, hr] at href
            have hppid : pid = p.pid := by injection href
            rw [hppid] at ha
            have hmem := aliveIn_of_mem h2 hp
            rw [halive] at hmem
            have hmem2 : isAlive w p.pid = true := hmem
            rw [ha] at hmem2
            exact Bool.false_ne_true hmem2

/-- The process list after a session start: the cleared list plus the
fresh process. -/
theorem startSession_procs (w : World) (r : Role) :
    (startSession w r).procs = (clearRole w r).procs ++ [⟨w.nextPid, r, true⟩] := by
  show (setRef { clearRole w r with
      procs := (clearRole w r).procs ++ [⟨w.nextPid, r, true⟩],
      nextPid := w.nextPid + 1 } r (some w.nextPid)).procs = _
  rw [setRef_procs]

/-- The counter after a session start. -/
theorem startSession_nextPid (w : World) (r : Role) :
    (startSession w r).nextPid = w.nextPid + 1 := by
  show (setRef { clearRole w r with
      procs := (clearRole w r).procs ++ [⟨w.nextPid, r, true⟩],
      nextPid := w.nextPid + 1 } r (some w.nextPid)).nextPid = _
  rw [setRef_nextPid]

/-- The references after a session start: the started role points at the
fresh process, the other role is untouched. -/
theorem startSession_getRef (w : World) (r r2 : Role) :
    getRef (startSession w r) r2 =
      if r2 = r then some w.nextPid else getRef (clearRole w r) r2 := by
  show getRef (setRef { clearRole w r with
      procs := (clearRole w r).procs ++ [⟨w.nextPid, r, true⟩],
      nextPid := w.nextPid + 1 } r (some w.nextPid)) r2 = _
  rw [getRef_setRef]
  by_cases h : r2 = r
  · rw [if_pos h, if_pos h]
  · rw [if_neg h, if_neg h]
    cases r2 <;> rfl

/-- A session start preserves the invariant. -/
theorem inv_start (w : World) (r : Role) (hw : WorldInv w) : WorldInv (startSession w r) := by
  obtain ⟨g1, g2, g3, g4⟩ := inv_clearRole w r hw
  have hnp := nextPid_clearRole w r
  have hnoalive := clearRole_no_alive w r hw
  obtain ⟨h1, h2, h3, h4⟩ := hw
  refine ⟨?_, ?_, ?_, ?_⟩
  · intro p hp
    rw [startSession_procs] at hp
    rw [startSession_nextPid]
    rcases List.mem_append.mp hp with h | h
    · have hlt := g1 p h
      rw [hnp] at hlt
      omega
    · rcases List.mem_singleton.mp h with rfl
      show w.nextPid < w.nextPid + 1
      omega
  · rw [startSession_procs]
    rw [List.pairwise_append]
    refine ⟨g2, List.pairwise_singleton _ _, ?_⟩
    intro a ha b hb
    rcases List.mem_singleton.mp hb with rfl
    have hlt := g1 a ha
    rw [hnp] at hlt
    show a.pid ≠ w.nextPid
    omega
  · intro p hp halive
    rw [startSession_procs] at hp
    rcases List.mem_append.mp hp with h | h
    · by_cases hrole : p.role = r
      · have hdead := hnoalive p h hrole
        rw [hdead] at halive
        exact absurd halive Bool.false_ne_true
      · rw [startSession_getRef, if_neg hrole]
        exact g3 p h halive
    · rcases List.mem_singleton.mp h with rfl
      rw [startSession_getRef]
      simp
  · intro r2 pid h
    rw [startSession_getRef] at h
    rw [startSession_nextPid]
    by_cases hr2 : r2 = r
    · rw [if_pos hr2] at h
      injection h with h
      omega
    · rw [if_neg hr2, getRef_clearRole] at h
      have hlt := h4 r2 pid h
      omega

/-- Every step preserves the invariant. -/
theorem inv_stepWorld (w : World) (s : SessionStep) (hw : WorldInv w) :
    WorldInv (stepWorld w s) := by
  cases s with
  | start r => exact inv_start w r hw
  | procExit pid => exact inv_kill w pid hw

/-- The invariant holds along any step sequence. -/
theorem inv_foldl : ∀ (ss : List SessionStep) (w : World),
    WorldInv w → WorldInv (ss.foldl stepWorld w)
  | [], _, hw => hw
  | s :: ss, w, hw => inv_foldl ss (stepWorld w s) (inv_stepWorld w s hw)

/-- Every reachable world satisfies the invariant. -/
theorem inv_runSteps (ss : List SessionStep) : WorldInv (runSteps ss) :=
  inv_foldl ss initWorld inv_init

/-- Killing an identifier that is not alive changes nothing. -/
theorem kill_noop (w : World) (pid : Nat) (hw : WorldInv w) (ha : isAlive w pid = false) :
    kill w pid = w := by
  obtain ⟨h1, h2, h3, h4⟩ := hw
  have hmap : w.procs.map (fun p => killProc p pid) = w.procs := by
    have hcongr : ∀ p ∈ w.procs, killProc p pid = p := by
      intro p hp
      by_cases h : p.pid = pid
      · have hal := aliveIn_of_mem h2 hp
        rw [h] at hal
        have hdead : p.alive = false := by
          rw [← hal]
          exact ha
        exact killProc_of_dead p pid hdead
      · exact killProc_of_ne p pid h
    calc w.procs.map (fun p => killProc p pid) = w.procs.map id :=
          List.map_congr_left hcongr
      _ = w.procs := List.map_id w.procs
  show { w with procs := w.procs.map (fun p => killProc p pid) } = w
  rw [hmap]

/-- C6: in every reachable world, at most one process per role is alive —
any two alive processes of the same role are equal — because starting a
session first force-terminates the role's prior still-running process
(after a start, the previously referenced process of that role is not
alive); and killing an already-exited process is a no-op on the world. -/
theorem c6_process_sessions :
    (∀ (ss : List SessionStep) (p q : Proc),
        p ∈ (runSteps ss).procs → q ∈ (runSteps ss).procs →
          p.alive = true → q.alive = true → p.role = q.role → p = q) ∧
      (∀ (ss : List SessionStep) (r : Role) (pid : Nat),
          getRef (runSteps ss) r = some pid →
            isAlive (startSession (runSteps ss) r) pid = false) ∧
        (∀ (ss : List SessionStep) (pid : Nat),
            isAlive (runSteps ss) pid = false → kill (runSteps ss) pid = runSteps ss) := by
  refine ⟨?_, ?_, ?_⟩
  · intro ss p q hp hq hpa hqa hrole
    obtain ⟨h1, h2, h3, h4⟩ := inv_runSteps ss
    have e1 := h3 p hp hpa
    have e2 := h3 q hq hqa
    rw [hrole, e2] at e1
    have hpid : p.pid = q.pid := by
      injection e1 with h
      exact h.symm
    exact pid_unique h2 hp hq hpid
  · intro ss r pid hr
    obtain ⟨h1, h2, h3, h4⟩ := inv_runSteps ss
    have hpidlt := h4 r pid hr
    show aliveIn (startSession (runSteps ss) r).procs pid = false
    rw [startSession_procs]
    rw [aliveIn_append_single _ _ _ (Nat.ne_of_gt hpidlt)]
    cases ha : isAlive (runSteps ss) pid with
    | true =>
        rw [clearRole_of_alive hr ha]
        exact aliveIn_map_kill _ pid
    | false =>
        rw [clearRole_of_dead hr ha]
        exact ha
  · intro ss pid ha
    exact kill_noop (runSteps ss) pid (inv_runSteps ss) ha

/-- Step sequence for the C6 witness: one session started in the
script-run role. -/
def ss6 : List SessionStep := [SessionStep.start Role.runScript]

/-- Step sequence for the C6 witness: a session started and then exited
naturally. -/
def ss6b : List SessionStep := [SessionStep.start Role.runScript, SessionStep.procExit 0]

/-- Witness for C6: the uniqueness, prior-kill and idempotent-kill parts
applied at concrete reachable worlds. -/
theorem c6_process_sessions_witness :
    ((⟨0, Role.runScript, true⟩ : Proc) ∈ (runSteps ss6).procs ∧
        (⟨0, Role.runScript, true⟩ : Proc).alive = true ∧
          (⟨0, Role.runScript, true⟩ : Proc) = ⟨0, Role.runScript, true⟩) ∧
      (getRef (runSteps ss6) Role.runScript = some 0 ∧
          isAlive (startSession (runSteps ss6) Role.runScript) 0 = false) ∧
        (isAlive (runSteps ss6b) 0 = false ∧ kill (runSteps ss6b) 0 = runSteps ss6b) :=
  ⟨⟨by decide, by decide,
      c6_process_sessions.1 ss6 ⟨0, Role.runScript, true⟩ ⟨0, Role.runScript, true⟩
        (by decide) (by decide) (by decide) (by decide) (by decide)⟩,
    ⟨by decide, c6_process_sessions.2.1 ss6 Role.runScript 0 (by decide)⟩,
    ⟨by decide, c6_process_sessions.2.2 ss6b 0 (by decide)⟩⟩
